import Mathlib

/-!
Shallow embedding of the plan Gantt renderer (`PlanView.ts`) together with
the external data model it consumes (`Plan`, `PlanStep`, `PlanStepCommitment`
from the pddl-workspace library, as described by the design document).

JavaScript numbers are modelled as exact rationals (`ℚ`).  Where the code can
divide by zero (`toViewCoordinates`) the IEEE-754 outcome (±Infinity / NaN)
matters, so the result of that computation lives in `JSVal`, a rational
extended with the three non-finite values, and the subsequent multiplication
and `Math.max` are given their JavaScript semantics on `JSVal`.
-/

/-- Commitment state of a plan step (the `PlanStepCommitment` enum of the
data model: `Committed`, `EndsInRelaxedPlan`, `StartsInRelaxedPlan`, plus an
unknown value standing for any other runtime value hitting the `default`
branch of the dispatch). -/
inductive PlanStepCommitment where
  | committed
  | endsInRelaxedPlan
  | startsInRelaxedPlan
  | unknown
deriving DecidableEq, Repr

/-- One scheduled action of a plan.  `getStartTime`, `getDuration`,
`getEndTime`, `getActionName`, `getObjects`, `getIterations` of the library
type are modelled as fields. -/
structure PlanStep where
  actionName : String
  objects : List String
  startTime : ℚ
  duration : Option ℚ
  endTime : ℚ
  isDurative : Bool
  commitment : PlanStepCommitment
  iterations : Nat
deriving DecidableEq, Repr

/-- The action catalog of a domain; only the ordered action names are
relevant (the code reads `getActions()[i].getNameOrEmpty()`). -/
structure DomainInfo where
  actions : List String
deriving DecidableEq, Repr

/-- Kind of a happening (`HappeningType.START` / `HappeningType.END`). -/
inductive HappeningType where
  | start
  | «end»
  | other
deriving DecidableEq, Repr

/-- A suggested next action surfaced by the planner. -/
structure HelpfulAction where
  actionName : String
  kind : HappeningType
deriving DecidableEq, Repr

/-- A plan: ordered steps, the optional execution-time cursor `now`, the
makespan used as denominator of the time→pixel scaling, optional helpful
actions and optional domain. -/
structure Plan where
  steps : List PlanStep
  now : Option ℚ
  makespan : ℚ
  helpfulActions : Option (List HelpfulAction)
  domain : Option DomainInfo
deriving DecidableEq, Repr

/-- `Plan.hasHelpfulActions()` of the library: the optional list is present
and non-empty ("if any helpful actions exist"). -/
def Plan.hasHelpfulActions (plan : Plan) : Bool :=
  match plan.helpfulActions with
  | none => false
  | some l => !l.isEmpty

/-- View configuration (`PlanViewOptions`): the epsilon fallback duration and
the display width in pixels.  `disableSwimlanes`/`selfContained` do not enter
any claimed computation. -/
structure PlanViewOptions where
  epsilon : ℚ
  displayWidth : ℚ
deriving DecidableEq, Repr

/-- A JavaScript number outcome: a finite (exactly represented) value or one
of the IEEE-754 non-finite values produced by dividing by zero. -/
inductive JSVal where
  | num (q : ℚ)
  | posInf
  | negInf
  | nan
deriving DecidableEq, Repr

/-- JavaScript division of finite numbers: `a / 0` is `+Infinity` for
positive `a`, `-Infinity` for negative `a`, and `NaN` for `a = 0` (the
dividend here is a plain `0` literal or a non-negative computation, so the
negative-zero divisor case does not arise). -/
def jsDiv (a b : ℚ) : JSVal :=
  if b ≠ 0 then .num (a / b)
  else if 0 < a then .posInf
  else if a < 0 then .negInf
  else .nan

/-- JavaScript multiplication of a possibly non-finite value by a finite
number: infinities keep or flip their sign with a nonzero factor and collapse
to `NaN` with a zero factor; `NaN` is absorbing. -/
def jsMul (v : JSVal) (w : ℚ) : JSVal :=
  match v with
  | .num a => .num (a * w)
  | .posInf => if 0 < w then .posInf else if w < 0 then .negInf else .nan
  | .negInf => if 0 < w then .negInf else if w < 0 then .posInf else .nan
  | .nan => .nan

/-- IEEE-754 `≤` on JavaScript numbers: any comparison involving `NaN` is
false. -/
def jsLe (a b : JSVal) : Bool :=
  match a, b with
  | .nan, _ => false
  | _, .nan => false
  | .num x, .num y => x ≤ y
  | .negInf, _ => true
  | _, .posInf => true
  | .posInf, _ => false
  | .num _, .negInf => false

/-- JavaScript `toLowerCase`, acting charwise (ASCII case folding, the
behaviour relevant to the PDDL action names being compared). -/
def toLowerCase (s : String) : String :=
  ⟨s.data.map Char.toLower⟩

/-- JavaScript `Math.max` on two values: `NaN` if either argument is `NaN`,
otherwise the larger argument. -/
def jsMax (a b : JSVal) : JSVal :=
  match a, b with
  | .nan, _ => .nan
  | _, .nan => .nan
  | x, y => if jsLe x y then y else x

namespace PlanView

/-- Fixed row height (`planStepHeight = 20`). -/
def planStepHeight : ℚ := 20

/-- `toViewCoordinates(time, plan)`: `(time ?? 0) / plan.makespan *
this.options.displayWidth`, evaluated with JavaScript arithmetic
(left-associated: the division happens first). -/
def toViewCoordinates (options : PlanViewOptions) (time : Option ℚ) (plan : Plan) : JSVal :=
  jsMul (jsDiv (time.getD 0) plan.makespan) options.displayWidth

/-- `computeLeftOffset(step, plan)`: view coordinate of the step's start. -/
def computeLeftOffset (options : PlanViewOptions) (step : PlanStep) (plan : Plan) : JSVal :=
  toViewCoordinates options (some step.startTime) plan

/-- `computePlanHeadDuration(step, plan)` exactly as written in the source:
dispatch on `plan.now`, then on the position of the step relative to `now`,
then on the step's commitment. -/
def computePlanHeadDuration (options : PlanViewOptions) (step : PlanStep) (plan : Plan) : ℚ :=
  match plan.now with
  | none => step.duration.getD options.epsilon
  | some now =>
    if step.endTime < now then
      if step.commitment = .committed then step.duration.getD options.epsilon
      else 0
    else if step.startTime ≥ now then 0
    else
      match step.commitment with
      | .committed => step.duration.getD options.epsilon
      | .endsInRelaxedPlan => 0
      | .startsInRelaxedPlan => now - step.startTime
      | .unknown => 0

/-- `computeWidth(planHeadDuration, plan)`: `Math.max(1,
toViewCoordinates(planHeadDuration, plan))`. -/
def computeWidth (options : PlanViewOptions) (planHeadDuration : ℚ) (plan : Plan) : JSVal :=
  jsMax (.num 1) (toViewCoordinates options (some planHeadDuration) plan)

/-- The relaxed duration computed inside `computeRelaxedWidth`:
`(step.getDuration() ?? epsilon) - planHeadDuration`. -/
def relaxedDuration (options : PlanViewOptions) (step : PlanStep) (planHeadDuration : ℚ) : ℚ :=
  step.duration.getD options.epsilon - planHeadDuration

/-- `computeRelaxedWidth(planHeadDuration, step, plan)`: view coordinate of
the relaxed duration. -/
def computeRelaxedWidth (options : PlanViewOptions) (planHeadDuration : ℚ) (step : PlanStep)
    (plan : Plan) : JSVal :=
  toViewCoordinates options (some (relaxedDuration options step planHeadDuration)) plan

/-- `isPlanHeadStep(step, timeNow)`: `timeNow === undefined || commitment ===
Committed || commitment === EndsInRelaxedPlan`. -/
def isPlanHeadStep (step : PlanStep) (timeNow : Option ℚ) : Bool :=
  match timeNow with
  | none => true
  | some _ =>
    match step.commitment with
    | .committed => true
    | .endsInRelaxedPlan => true
    | _ => false

/-- The 24-entry color palette (`colors`). -/
def colors : List String :=
  ["#ff0000", "#ff4000", "#ff8000", "#ffbf00", "#ffff00", "#bfff00", "#80ff00", "#40ff00",
   "#00ff00", "#00ff40", "#00ff80", "#00ffbf", "#00ffff", "#00bfff", "#0080ff", "#0040ff",
   "#0000ff", "#4000ff", "#8000ff", "#bf00ff", "#ff00ff", "#ff00bf", "#ff0080", "#ff0040"]

/-- `getActionColor(step, domain?)`: `findIndex` of the first action of the
domain whose name matches the step's action name case-insensitively
(`undefined` when the domain is absent, `-1` when no action matches), then
`gray` for `undefined` or negative index, else `colors[index * 7 %
colors.length]`. -/
def getActionColor (step : PlanStep) (domain : Option DomainInfo) : String :=
  let actionIndex : Option Int :=
    domain.map (fun d =>
      match d.actions.findIdx? (fun a => toLowerCase a = toLowerCase step.actionName) with
      | some i => (i : Int)
      | none => -1)
  match actionIndex with
  | none => "gray"
  | some i => if i < 0 then "gray" else colors.getD (i.toNat * 7 % colors.length) "gray"

/-- The bar color chosen in `renderGanttStep`: `plan.domain ?
this.getActionColor(step, plan.domain) : 'gray'`. -/
def stepActionColor (step : PlanStep) (plan : Plan) : String :=
  match plan.domain with
  | some d => getActionColor step (some d)
  | none => "gray"

/-- `getActionSuffix(helpfulAction)`: the directional glyph keyed by the
happening kind. -/
def getActionSuffix (helpfulAction : HelpfulAction) : String :=
  match helpfulAction.kind with
  | .start => "├"
  | .«end» => "┤"
  | .other => ""

/-- `shouldDisplay(planStep, settings?)`: `settings?.shouldDisplay(planStep)
?? true`; the settings object is its visibility predicate. -/
def shouldDisplay (planStep : PlanStep) (settings : Option (PlanStep → Bool)) : Bool :=
  match settings with
  | some f => f planStep
  | none => true

/-- The claim-relevant attributes of one rendered `planstep` bar element
(its `top`/`left` offsets, the committed and relaxed bar widths, and the bar
color). -/
structure StepElem where
  top : ℚ
  left : JSVal
  width : JSVal
  widthRelaxed : JSVal
  color : String
deriving DecidableEq, Repr

/-- A child node appended to the `.gantt` div: a rendered step bar, a plain
text node, a helpful-action link, or the helpful-actions marker div. -/
inductive GanttChild where
  | stepElem (e : StepElem)
  | textNode (s : String)
  | helpfulLink (html : String)
  | helpfulMarker (top : ℚ) (left : JSVal)
deriving DecidableEq, Repr

/-- The `.gantt` div: its `plan` attribute, its height style, and its
appended children in document order. -/
structure GanttDiv where
  planAttr : Option Nat
  height : ℚ
  children : List GanttChild
deriving DecidableEq, Repr

/-- The host element, as far as `showPlan` reads and writes it: the result
of `querySelector('.gantt')` (none before the first render). -/
structure Host where
  gantt : Option GanttDiv
deriving DecidableEq, Repr

/-- `renderGanttStep(ganttDiv, step, index, plan)` computes these values and
appends one `planstep` element carrying them. -/
def mkStepElem (options : PlanViewOptions) (step : PlanStep) (index : Nat) (plan : Plan) :
    StepElem :=
  { top := (index : ℚ) * planStepHeight
    left := computeLeftOffset options step plan
    width := computeWidth options (computePlanHeadDuration options step plan) plan
    widthRelaxed := computeRelaxedWidth options (computePlanHeadDuration options step plan)
      step plan
    color := stepActionColor step plan }

/-- `renderHelpfulActions(ganttDiv, plan, planHeadLength)`: when helpful
actions are present, each one appends its numbering text node and link to the
gantt div (the code passes `ganttDiv` to `renderHelpfulAction`), then the
marker div — positioned at `timeToPixels(plan.now, plan)` on the row after
the plan head — is appended. -/
def renderHelpfulActions (options : PlanViewOptions) (ganttDiv : GanttDiv) (plan : Plan)
    (planHeadLength : Nat) : GanttDiv :=
  if plan.hasHelpfulActions then
    let haChildren := ((plan.helpfulActions.getD []).mapIdx (fun i ha =>
      [GanttChild.textNode (toString (i + 1) ++ ". "),
       GanttChild.helpfulLink (ha.actionName ++ "<sub>" ++ getActionSuffix ha ++ "</sub>")])).flatten
    let marker := GanttChild.helpfulMarker ((planHeadLength : ℚ) * planStepHeight)
      (toViewCoordinates options plan.now plan)
    { ganttDiv with children := ganttDiv.children ++ haChildren ++ [marker] }
  else ganttDiv

/-- `showGantt(ganttDiv, plan, stepsToDisplay, planIndex)`: partition the
displayable steps into plan-head and relaxed lists, set the `plan` attribute
and the chart height on the (possibly pre-existing) gantt div, then append —
never remove — the plan-head step elements, the helpful actions, and the
relaxed step elements at their row offsets. -/
def showGantt (options : PlanViewOptions) (ganttDiv : GanttDiv) (plan : Plan)
    (stepsToDisplay : List PlanStep) (planIndex : Nat) : GanttDiv :=
  let planHeadSteps := stepsToDisplay.filter (fun step => isPlanHeadStep step plan.now)
  let relaxedPlanSteps := stepsToDisplay.filter (fun step => !isPlanHeadStep step plan.now)
  let oneIfHelpfulActionsPresent : Nat := if plan.hasHelpfulActions then 1 else 0
  let relaxedPlanStepIndexOffset := planHeadSteps.length + oneIfHelpfulActionsPresent
  let ganttChartHeight : ℚ :=
    ((stepsToDisplay.length + oneIfHelpfulActionsPresent : Nat) : ℚ) * planStepHeight
  let planHeadElems := planHeadSteps.mapIdx (fun stepIndex step =>
    GanttChild.stepElem (mkStepElem options step stepIndex plan))
  let relaxedElems := relaxedPlanSteps.mapIdx (fun stepIndex step =>
    GanttChild.stepElem (mkStepElem options step (stepIndex + relaxedPlanStepIndexOffset) plan))
  let g1 : GanttDiv := { ganttDiv with planAttr := some planIndex, height := ganttChartHeight }
  let g2 : GanttDiv := { g1 with children := g1.children ++ planHeadElems }
  let g3 := renderHelpfulActions options g2 plan planHeadSteps.length
  { g3 with children := g3.children ++ relaxedElems }

/-- Upper-casing of the first character of a word. -/
def capitalizeWord (s : String) : String :=
  match s.data with
  | [] => s
  | c :: cs => ⟨c.toUpper :: cs⟩

/-- Modelled from the spec: `capitalize` lives in `planCapitalization.ts`,
which is not among the provided sources; the design document describes it as
"capitalizing the plan's action/object names in place before rendering (a
display-normalization pass, not semantically significant)". -/
def capitalize (plan : Plan) : Plan :=
  { plan with steps := plan.steps.map (fun s =>
      { s with actionName := capitalizeWord s.actionName,
               objects := s.objects.map capitalizeWord }) }

/-- `showPlan(plan, planIndex, settings?)`: capitalize the plan, filter the
displayable steps, reuse the existing `.gantt` sub-element of the host when
one exists (creating an empty one otherwise), and run `showGantt` on it. -/
def showPlan (options : PlanViewOptions) (host : Host) (plan : Plan) (planIndex : Nat)
    (settings : Option (PlanStep → Bool)) : Host :=
  let plan := capitalize plan
  let stepsToDisplay := plan.steps.filter (fun step => shouldDisplay step settings)
  let ganttDiv := host.gantt.getD { planAttr := none, height := 0, children := [] }
  { host with gantt := some (showGantt options ganttDiv plan stepsToDisplay planIndex) }

/-- The committed-duration dispatch exactly as the design document words it
(§4.1 "Operation: committedDuration"): `now` undefined → whole duration (or
epsilon); fully past → full only when Committed; entirely future → 0;
straddling → full for Committed, 0 for EndsInRelaxedPlan, elapsed portion for
StartsInRelaxedPlan, 0 for any other value. -/
def committedDuration_spec (options : PlanViewOptions) (step : PlanStep) (plan : Plan) : ℚ :=
  match plan.now with
  | none => step.duration.getD options.epsilon
  | some now =>
    if step.endTime < now then
      if step.commitment = .committed then step.duration.getD options.epsilon else 0
    else if now ≤ step.startTime then 0
    else
      match step.commitment with
      | .committed => step.duration.getD options.epsilon
      | .endsInRelaxedPlan => 0
      | .startsInRelaxedPlan => now - step.startTime
      | _ => 0

end PlanView

open PlanView

section Claims

/-- C1: `computePlanHeadDuration(step, plan)` follows the specified dispatch
exactly: `now` undefined → the duration (or epsilon); step fully past `now` →
full duration only for `Committed`, else 0; step entirely at or after `now` →
0; step straddling `now` → full duration for `Committed`, 0 for
`EndsInRelaxedPlan`, `now - startTime` for `StartsInRelaxedPlan`, 0 for any
other commitment value. -/
theorem computePlanHeadDuration_follows_spec_dispatch :
    ∀ (options : PlanViewOptions) (step : PlanStep) (plan : Plan),
    computePlanHeadDuration options step plan = committedDuration_spec options step plan := by
  intro options step plan
  unfold computePlanHeadDuration committedDuration_spec
  cases plan.now with
  | none => rfl
  | some now => cases step.commitment <;> rfl

/-- C2: the committed duration plus the relaxed duration computed inside
`computeRelaxedWidth` equals `step.duration` when the duration is defined and
`epsilon` otherwise. -/
theorem planHead_plus_relaxed_eq_duration :
    ∀ (options : PlanViewOptions) (step : PlanStep) (plan : Plan),
    computePlanHeadDuration options step plan +
      relaxedDuration options step (computePlanHeadDuration options step plan) =
      (match step.duration with
       | some d => d
       | none => options.epsilon) := by
  intro options step plan
  unfold relaxedDuration
  cases step.duration <;> simp [Option.getD]

/-- C4: `isPlanHeadStep(step, timeNow)` returns true exactly when `timeNow`
is undefined or the step's commitment is `Committed` or `EndsInRelaxedPlan`;
in particular every step is plan-head when `timeNow` is undefined. -/
theorem isPlanHeadStep_iff :
    ∀ (step : PlanStep) (timeNow : Option ℚ),
    isPlanHeadStep step timeNow = true ↔
      (timeNow = none ∨ step.commitment = .committed ∨
        step.commitment = .endsInRelaxedPlan) := by
  intro step timeNow
  cases timeNow <;> cases h : step.commitment <;> simp [isPlanHeadStep, h]

/-- C10: plan-head classification reads only the commitment: two steps with
the same commitment are classified alike for every `now`, all other fields
notwithstanding; and with `now` defined a `StartsInRelaxedPlan` step is always
classified relaxed, even when it lies entirely in the past. -/
theorem isPlanHeadStep_commitment_determined :
    (∀ (s1 s2 : PlanStep) (now : Option ℚ), s1.commitment = s2.commitment →
      isPlanHeadStep s1 now = isPlanHeadStep s2 now) ∧
    (∀ (s : PlanStep) (t : ℚ), s.commitment = .startsInRelaxedPlan →
      isPlanHeadStep s (some t) = false) := by
  constructor
  · intro s1 s2 now h
    cases now <;> simp [isPlanHeadStep, h]
  · intro s t h
    simp [isPlanHeadStep, h]

/-- Witness for C10: a step lying entirely in the past (`endTime = 2 < now =
10`) with commitment `StartsInRelaxedPlan` is classified exactly like a
future step with the same commitment, namely as relaxed. -/
theorem isPlanHeadStep_commitment_determined_witness :
    isPlanHeadStep ⟨"a", [], 0, some 2, 2, true, .startsInRelaxedPlan, 1⟩ (some 10) =
      isPlanHeadStep ⟨"b", ["x"], 100, some 5, 105, true, .startsInRelaxedPlan, 1⟩ (some 10) ∧
    isPlanHeadStep ⟨"a", [], 0, some 2, 2, true, .startsInRelaxedPlan, 1⟩ (some 10) = false :=
  ⟨isPlanHeadStep_commitment_determined.1 _ _ _ rfl,
   isPlanHeadStep_commitment_determined.2 _ 10 rfl⟩

/-- Counterexample to C3: with `makespan = 0` and `time = 1` the code
computes `1 / 0 * 300`, which is `+Infinity`, not `0` — `toViewCoordinates`
contains no zero-makespan guard. -/
theorem toViewCoordinates_zero_makespan_counterexample :
    toViewCoordinates ⟨1, 300⟩ (some 1) ⟨[], none, 0, none, none⟩ = JSVal.posInf ∧
    JSVal.posInf ≠ JSVal.num 0 := by
  decide

/-- C3 (amended): `toViewCoordinates` computes `(time ?? 0) / makespan *
displayWidth` with no zero-makespan guard: for `makespan ≠ 0` it returns that
finite value, and for `makespan = 0` it returns a non-finite value (NaN or
±Infinity), never a finite number such as 0. -/
theorem toViewCoordinates_formula_and_zero_makespan :
    ∀ (options : PlanViewOptions) (time : Option ℚ) (plan : Plan),
    (plan.makespan ≠ 0 →
      toViewCoordinates options time plan =
        .num (time.getD 0 / plan.makespan * options.displayWidth)) ∧
    (plan.makespan = 0 → ∀ q : ℚ, toViewCoordinates options time plan ≠ .num q) := by
  intro options time plan
  constructor
  · intro h
    simp [toViewCoordinates, jsDiv, jsMul, h]
  · intro h q
    unfold toViewCoordinates jsDiv
    rw [h]
    have hpos : ∀ w : ℚ, jsMul .posInf w ≠ .num q := by
      intro w; unfold jsMul; split_ifs <;> simp
    have hneg : ∀ w : ℚ, jsMul .negInf w ≠ .num q := by
      intro w; unfold jsMul; split_ifs <;> simp
    have hnan : ∀ w : ℚ, jsMul .nan w ≠ .num q := by
      intro w; unfold jsMul; simp
    split_ifs with h1 h2 h3
    · exact absurd rfl h1
    · exact hpos _
    · exact hneg _
    · exact hnan _

/-- Witness for C3 (amended): at `makespan = 10`, `displayWidth = 300`,
`time = 5` the formula gives 150 pixels; at `makespan = 0`, `time = 1` the
result is not the finite value 0. -/
theorem toViewCoordinates_formula_witness :
    toViewCoordinates ⟨1, 300⟩ (some 5) ⟨[], none, 10, none, none⟩ = JSVal.num 150 ∧
    toViewCoordinates ⟨1, 300⟩ (some 1) ⟨[], none, 0, none, none⟩ ≠ JSVal.num 0 := by
  constructor
  · rw [(toViewCoordinates_formula_and_zero_makespan ⟨1, 300⟩ (some 5)
      ⟨[], none, 10, none, none⟩).1 (by decide)]
    norm_num
  · exact (toViewCoordinates_formula_and_zero_makespan ⟨1, 300⟩ (some 1)
      ⟨[], none, 0, none, none⟩).2 rfl 0

/-- Counterexample to C6: for the finite non-negative committed duration 0
and a plan with `makespan = 0`, `computeWidth` is `Math.max(1, NaN) = NaN`,
which is not `≥ 1`. -/
theorem computeWidth_zero_makespan_counterexample :
    computeWidth ⟨1, 300⟩ 0 ⟨[], none, 0, none, none⟩ = JSVal.nan ∧
    jsLe (JSVal.num 1) JSVal.nan = false := by
  decide

/-- C6 (amended): `computeWidth` equals `Math.max(1,
toViewCoordinates(planHeadDuration, plan))` by definition, and for every
finite non-negative committed duration and plan with `makespan ≠ 0` the
result is `≥ 1`; when `makespan = 0` it can instead be NaN or ±Infinity. -/
theorem computeWidth_ge_one :
    ∀ (options : PlanViewOptions) (planHeadDuration : ℚ) (plan : Plan),
    plan.makespan ≠ 0 → 0 ≤ planHeadDuration →
    jsLe (.num 1) (computeWidth options planHeadDuration plan) = true ∧
    computeWidth options planHeadDuration plan =
      jsMax (.num 1) (toViewCoordinates options (some planHeadDuration) plan) := by
  intro options planHeadDuration plan hm _hd
  refine ⟨?_, rfl⟩
  have hview : toViewCoordinates options (some planHeadDuration) plan =
      .num (planHeadDuration / plan.makespan * options.displayWidth) := by
    simp [toViewCoordinates, jsDiv, jsMul, hm]
  unfold computeWidth
  rw [hview]
  unfold jsMax jsLe
  by_cases h1 : (1 : ℚ) ≤ planHeadDuration / plan.makespan * options.displayWidth <;>
    simp [h1]

/-- Witness for C6 (amended): committed duration 0 on a plan with makespan
10 renders with the minimum width, which is `≥ 1`; the definition agrees with
`Math.max`. -/
theorem computeWidth_ge_one_witness :
    jsLe (.num 1) (computeWidth ⟨1, 300⟩ 0 ⟨[], none, 10, none, none⟩) = true ∧
    computeWidth ⟨1, 300⟩ 0 ⟨[], none, 10, none, none⟩ =
      jsMax (.num 1) (toViewCoordinates ⟨1, 300⟩ (some 0) ⟨[], none, 10, none, none⟩) :=
  computeWidth_ge_one ⟨1, 300⟩ 0 ⟨[], none, 10, none, none⟩ (by decide) (by decide)

/-- Counterexample to C7: a step with negative duration `-5` satisfying
`endTime = startTime + (duration ?? 0)` and `epsilon = 1 > 0`, lying fully in
the past with a non-`Committed` commitment, gets committed duration 0 and
relaxed duration `-5 < 0`. -/
theorem relaxedDuration_negative_counterexample :
    ((⟨"a", [], 0, some (-5), -5, true, .unknown, 1⟩ : PlanStep).endTime =
      (⟨"a", [], 0, some (-5), -5, true, .unknown, 1⟩ : PlanStep).startTime +
      ((⟨"a", [], 0, some (-5), -5, true, .unknown, 1⟩ : PlanStep).duration.getD 0)) ∧
    (0 : ℚ) < (1 : ℚ) ∧
    relaxedDuration ⟨1, 300⟩ ⟨"a", [], 0, some (-5), -5, true, .unknown, 1⟩
      (computePlanHeadDuration ⟨1, 300⟩ ⟨"a", [], 0, some (-5), -5, true, .unknown, 1⟩
        ⟨[], some 1, 10, none, none⟩) < 0 := by
  refine ⟨by norm_num, by norm_num, ?_⟩
  norm_num [relaxedDuration, computePlanHeadDuration]
  rw [if_neg (by decide)]
  norm_num

/-- C7 (amended): for every step whose `endTime` is consistent
(`endTime = startTime + (duration ?? 0)`), whose duration is non-negative
when defined, and with `epsilon > 0`, the relaxed duration
`(duration ?? epsilon) - computePlanHeadDuration(step, plan)` is
non-negative, for every plan and commitment value. -/
theorem relaxedDuration_nonneg :
    ∀ (options : PlanViewOptions) (step : PlanStep) (plan : Plan),
    step.endTime = step.startTime + step.duration.getD 0 →
    0 < options.epsilon →
    (∀ d : ℚ, step.duration = some d → 0 ≤ d) →
    0 ≤ relaxedDuration options step (computePlanHeadDuration options step plan) := by
  intro options step plan hend heps hdur
  have hgd : 0 ≤ step.duration.getD options.epsilon := by
    cases hd : step.duration with
    | none => simpa using le_of_lt heps
    | some d => simpa using hdur d hd
  unfold relaxedDuration computePlanHeadDuration
  cases hnow : plan.now with
  | none => simp
  | some now =>
    dsimp only
    split_ifs with h1 h2 h3
    · simp
    · linarith
    · linarith
    · cases hc : step.commitment
      · simp
      · simpa using hgd
      · -- StartsInRelaxedPlan straddling now: the branch guards bound
        -- now - startTime by the duration
        push_neg at h1 h3
        dsimp only
        cases hd : step.duration with
        | none =>
          rw [hd] at hend
          simp only [Option.getD_none, add_zero] at hend
          rw [hend] at h1
          simp only [hd, Option.getD_none]
          linarith
        | some d =>
          rw [hd] at hend
          simp only [Option.getD_some] at hend
          simp only [hd, Option.getD_some]
          linarith
      · simpa using hgd

/-- Witness for C7 (amended): the spec's scenario — `StartsInRelaxedPlan`,
`startTime = 2`, `now = 5`, `duration = 6`, `endTime = 8` — has committed
duration 3 and relaxed duration `6 - 3 = 3 ≥ 0`. -/
theorem relaxedDuration_nonneg_witness :
    0 ≤ relaxedDuration ⟨1, 300⟩ ⟨"a", [], 2, some 6, 8, true, .startsInRelaxedPlan, 1⟩
      (computePlanHeadDuration ⟨1, 300⟩ ⟨"a", [], 2, some 6, 8, true, .startsInRelaxedPlan, 1⟩
        ⟨[], some 5, 10, none, none⟩) :=
  relaxedDuration_nonneg ⟨1, 300⟩ ⟨"a", [], 2, some 6, 8, true, .startsInRelaxedPlan, 1⟩
    ⟨[], some 5, 10, none, none⟩ (by norm_num) (by norm_num)
    (by intro d hd; norm_num at hd; subst hd; norm_num)

/-- Counterexample to C8: (a) with `makespan = 0`, `timeToPixels(0, plan)`
is NaN, not 0; (b) with `makespan = 1` and `displayWidth = -300`, and (c)
with `makespan = -1` and `displayWidth = 300`, the mapping is decreasing:
`0 ≤ 1` but `timeToPixels(0) ≤ timeToPixels(1)` is false. -/
theorem toViewCoordinates_monotone_counterexample :
    (toViewCoordinates ⟨1, 300⟩ (some 0) ⟨[], none, 0, none, none⟩ ≠ JSVal.num 0) ∧
    ((0 : ℚ) ≤ 1 ∧
      jsLe (toViewCoordinates ⟨1, -300⟩ (some 0) ⟨[], none, 1, none, none⟩)
        (toViewCoordinates ⟨1, -300⟩ (some 1) ⟨[], none, 1, none, none⟩) = false) ∧
    ((0 : ℚ) ≤ 1 ∧
      jsLe (toViewCoordinates ⟨1, 300⟩ (some 0) ⟨[], none, -1, none, none⟩)
        (toViewCoordinates ⟨1, 300⟩ (some 1) ⟨[], none, -1, none, none⟩) = false) := by
  refine ⟨by decide, ⟨by norm_num, ?_⟩, ⟨by norm_num, ?_⟩⟩ <;>
    norm_num [toViewCoordinates, jsDiv, jsMul, jsLe]

/-- C8 (amended): for every plan with `makespan > 0` and options with
`displayWidth ≥ 0`, `toViewCoordinates` is monotonically non-decreasing in
its time argument, and `toViewCoordinates(0, plan) = 0`. -/
theorem toViewCoordinates_monotone :
    ∀ (options : PlanViewOptions) (plan : Plan),
    0 < plan.makespan → 0 ≤ options.displayWidth →
    (∀ t1 t2 : ℚ, t1 ≤ t2 →
      jsLe (toViewCoordinates options (some t1) plan)
        (toViewCoordinates options (some t2) plan) = true) ∧
    toViewCoordinates options (some 0) plan = .num 0 := by
  intro options plan hm hw
  have hm' : plan.makespan ≠ 0 := ne_of_gt hm
  constructor
  · intro t1 t2 ht
    simp only [toViewCoordinates, jsDiv, jsMul, if_pos hm', Option.getD_some, jsLe,
      decide_eq_true_eq]
    gcongr
  · simp [toViewCoordinates, jsDiv, jsMul, hm']

/-- Witness for C8 (amended): with `makespan = 10` and `displayWidth = 300`,
times `3 ≤ 5` map to non-decreasing pixel offsets and time 0 maps to pixel
0. -/
theorem toViewCoordinates_monotone_witness :
    jsLe (toViewCoordinates ⟨1, 300⟩ (some 3) ⟨[], none, 10, none, none⟩)
      (toViewCoordinates ⟨1, 300⟩ (some 5) ⟨[], none, 10, none, none⟩) = true ∧
    toViewCoordinates ⟨1, 300⟩ (some 0) ⟨[], none, 10, none, none⟩ = JSVal.num 0 :=
  ⟨(toViewCoordinates_monotone ⟨1, 300⟩ ⟨[], none, 10, none, none⟩ (by norm_num)
      (by norm_num)).1 3 5 (by norm_num),
   (toViewCoordinates_monotone ⟨1, 300⟩ ⟨[], none, 10, none, none⟩ (by norm_num)
      (by norm_num)).2⟩

/-- C9: the bar color of a step is the neutral fallback `gray` when the
plan's domain is undefined; with a domain, it is `gray` when no domain action
matches the step's action name case-insensitively, and
`colors[(index * 7) % 24]` for the zero-based index of the first
case-insensitive match; the palette has exactly 24 entries. -/
theorem stepActionColor_spec :
    ∀ (step : PlanStep) (plan : Plan),
    (plan.domain = none → stepActionColor step plan = "gray") ∧
    (∀ d : DomainInfo, plan.domain = some d →
      (d.actions.findIdx? (fun a => toLowerCase a = toLowerCase step.actionName) = none →
        stepActionColor step plan = "gray") ∧
      (∀ i : Nat, d.actions.findIdx? (fun a => toLowerCase a = toLowerCase step.actionName) =
          some i →
        stepActionColor step plan = colors.getD (i * 7 % 24) "gray")) ∧
    colors.length = 24 := by
  intro step plan
  refine ⟨?_, ?_, rfl⟩
  · intro h
    simp [stepActionColor, h]
  · intro d hd
    constructor
    · intro hfind
      simp [stepActionColor, hd, getActionColor, hfind]
    · intro i hfind
      simp [stepActionColor, hd, getActionColor, hfind]
      rw [if_neg (not_lt.mpr (Int.natCast_nonneg i))]
      rfl

/-- Witness for C9: with no domain the color is `gray`; with a domain whose
second action (index 1) matches `Move` case-insensitively, the color is
`colors[7] = #40ff00`. -/
theorem stepActionColor_spec_witness :
    stepActionColor ⟨"Move", [], 0, some 1, 1, false, .committed, 1⟩
      ⟨[], none, 10, none, none⟩ = "gray" ∧
    stepActionColor ⟨"Move", [], 0, some 1, 1, false, .committed, 1⟩
      ⟨[], none, 10, none, some ⟨["load", "move", "unload"]⟩⟩ =
      colors.getD (1 * 7 % 24) "gray" :=
  ⟨(stepActionColor_spec ⟨"Move", [], 0, some 1, 1, false, .committed, 1⟩
      ⟨[], none, 10, none, none⟩).1 rfl,
   ((stepActionColor_spec ⟨"Move", [], 0, some 1, 1, false, .committed, 1⟩
      ⟨[], none, 10, none, some ⟨["load", "move", "unload"]⟩⟩).2.1
      ⟨["load", "move", "unload"]⟩ rfl).2 1 (by decide)⟩

/-- C5 (code bug, evaluated at the failing input): `showPlan` re-invoked
with identical arguments finds the previously created `.gantt` region
(`querySelector('.gantt') ?? createSubElement('gantt')`) and `showGantt`
appends the step elements to it again — there is no clearing step — so after
one invocation the region holds 1 rendered step element but after a second
identical invocation it holds 2, while the `plan` attribute still maps the
region to plan index 0. -/
theorem showPlan_reinvocation_appends :
    ((showPlan ⟨1, 300⟩ ⟨none⟩
        ⟨[⟨"move", ["truck1"], 0, some 5, 5, true, .committed, 1⟩], none, 10, none, none⟩
        0 none).gantt.map (fun g => g.children.length) = some 1) ∧
    ((showPlan ⟨1, 300⟩
        (showPlan ⟨1, 300⟩ ⟨none⟩
          ⟨[⟨"move", ["truck1"], 0, some 5, 5, true, .committed, 1⟩], none, 10, none, none⟩
          0 none)
        ⟨[⟨"move", ["truck1"], 0, some 5, 5, true, .committed, 1⟩], none, 10, none, none⟩
        0 none).gantt.map (fun g => g.children.length) = some 2) ∧
    ((showPlan ⟨1, 300⟩
        (showPlan ⟨1, 300⟩ ⟨none⟩
          ⟨[⟨"move", ["truck1"], 0, some 5, 5, true, .committed, 1⟩], none, 10, none, none⟩
          0 none)
        ⟨[⟨"move", ["truck1"], 0, some 5, 5, true, .committed, 1⟩], none, 10, none, none⟩
        0 none).gantt.map (fun g => g.planAttr) = some (some 0)) := by
  refine ⟨?_, ?_, ?_⟩ <;> rfl

end Claims
